import Mathlib

/-!
Verification development for the OASIS public-safety dashboard
(`app.py` and `notebooks/app_analyse_crimesdelits.py`).

The dashboard's data layer is embedded shallowly:
a pandas DataFrame row becomes a Lean structure, column-wise
DataFrame operations become list operations, `groupby(...).sum()`
becomes "sorted unique keys, each paired with the sum of its fiber"
(pandas `groupby` sorts group keys by default), and `sort_values`
is modelled as an insertion sort.  Pandas' default
`kind='quicksort'` is documented as not stable, so the order of
tied elements is unspecified; no theorem below depends on the tie
order the model realises.  Numeric cells (`float64` after
`pd.to_numeric`) are idealized as rationals.
-/

namespace Oasis

/-- Byte-wise lexicographic comparison of character lists,
    modelling Python string comparison (`Series.between`,
    `groupby` key ordering). -/
def strLeAux : List Char → List Char → Bool
  | [], _ => true
  | _ :: _, [] => false
  | a :: as, b :: bs =>
    if a.toNat < b.toNat then true
    else if b.toNat < a.toNat then false
    else strLeAux as bs

/-- Python-style comparison of strings by code points. -/
def strLe (a b : String) : Bool := strLeAux a.data b.data

/-- One cleaned record of the dataset: the five columns kept by
    `load_data` (`Unite_temps`, `Zone_geographique`, `Valeurs`,
    `Indicateur`, `Code_dep`), after `Valeurs` passed
    `pd.to_numeric` and `Unite_temps` was cast to `int`. -/
structure Record where
  uniteTemps : Int
  zoneGeographique : String
  valeurs : ℚ
  indicateur : String
  codeDep : String
deriving DecidableEq

/-- One row of the national aggregate produced by
    `get_national_statistics`: a (year, indicator) group key and
    the summed `Valeurs` of its group. -/
structure NatRow where
  uniteTemps : Int
  indicateur : String
  valeurs : ℚ
deriving DecidableEq

/-- One row of the departmental summary produced by
    `create_departmental_analysis`: a zone and its summed
    `Valeurs`. -/
structure DeptRow where
  zoneGeographique : String
  valeurs : ℚ
deriving DecidableEq

/-- The (year, indicator) group key used by
    `groupby(['Unite_temps', 'Indicateur'])`. -/
def natKey (r : Record) : Int × String := (r.uniteTemps, r.indicateur)

/-- Ordering of (year, indicator) group keys: pandas sorts the
    grouped output lexicographically on the two key columns. -/
def pairLE (a b : Int × String) : Prop :=
  a.1 < b.1 ∨ (a.1 = b.1 ∧ strLe a.2 b.2 = true)

instance : DecidableRel pairLE := fun a b => by unfold pairLE; infer_instance

/-- Ordering of zone keys used by `groupby('Zone_geographique')`. -/
def zoneLE (a b : String) : Prop := strLe a b = true

instance : DecidableRel zoneLE := fun a b => by unfold zoneLE; infer_instance

/-- The sorted list of distinct (year, indicator) keys of a record
    list, as `groupby(['Unite_temps', 'Indicateur'])` (with its
    default `sort=True`) enumerates the groups. -/
def natKeys (rows : List Record) : List (Int × String) :=
  List.insertionSort pairLE ((rows.map natKey).dedup)

/-- The function `get_national_statistics` (app.py lines 139-160, notebook lines
    68-78): filter to the selected indicators and years with
    `isin`, group by (year, indicator), and sum `Valeurs`;
    `reset_index` turns the grouped result back into plain rows. -/
def get_national_statistics (df : List Record)
    (selected_indicators : List String) (selected_years : List Int) :
    List NatRow :=
  let filtered_df := df.filter fun r =>
    selected_indicators.contains r.indicateur &&
    selected_years.contains r.uniteTemps
  (natKeys filtered_df).map fun k =>
    { uniteTemps := k.1
      indicateur := k.2
      valeurs := ((filtered_df.filter fun r => natKey r = k).map
        (fun r => r.valeurs)).sum }

/-- The sorted list of distinct zones of a record list, as
    `groupby('Zone_geographique')` enumerates the groups. -/
def zoneKeys (rows : List Record) : List String :=
  List.insertionSort zoneLE ((rows.map (fun r => r.zoneGeographique)).dedup)

/-- Descending-by-value comparison used by
    `sort_values('Valeurs', ascending=False)`. -/
def deptGE (a b : DeptRow) : Prop := b.valeurs ≤ a.valeurs

instance : DecidableRel deptGE := fun a b => by unfold deptGE; infer_instance

/-- The function `create_departmental_analysis` (app.py lines 215-240, notebook
    lines 188-202): filter to the exact indicator and year, return
    `None` when nothing matches, otherwise group by zone, sum
    `Valeurs`, and sort descending by the summed value.
    `sort_values` runs with pandas' default `kind='quicksort'`,
    which is documented as not stable, so the order of tied zones
    is unspecified; the insertion sort here is one admissible
    realisation, and no theorem below relies on the order it gives
    tied elements. -/
def create_departmental_analysis (df : List Record)
    (selected_indicator : String) (selected_year : Int) :
    Option (List DeptRow) :=
  let dept_data := df.filter fun r =>
    r.indicateur == selected_indicator && r.uniteTemps == selected_year
  if dept_data.isEmpty then none
  else
    let dept_summary := (zoneKeys dept_data).map fun z =>
      { zoneGeographique := z
        valeurs := ((dept_data.filter fun r => r.zoneGeographique == z).map
          (fun r => r.valeurs)).sum : DeptRow }
    some (List.insertionSort deptGE dept_summary)

/-! ### Loader (`load_data`) -/

/-- One raw CSV row, before cleaning.  A `none` field is a missing
    value (pandas `NaN`), dropped by `dropna`.  `Valeurs` arrives as
    text; `pd.to_numeric(..., errors='coerce')` either yields a
    number or `NaN`, so a present `Valeurs` cell is modelled as
    `some (some q)` (coercible) or `some none` (non-coercible).
    `Unite_temps` is modelled post-parse as an integer. -/
structure RawRow where
  uniteTemps : Option Int
  zoneGeographique : Option String
  valeurs : Option (Option ℚ)
  indicateur : Option String
  codeDep : Option String
deriving DecidableEq

/-- A parsed CSV file: its header and its rows. -/
structure RawCSV where
  columns : List String
  rows : List RawRow
deriving DecidableEq

/-- The candidate paths tried by `load_data` (app.py lines 70-74). -/
def possible_paths : List String :=
  ["data/serieschrono-datagouv.csv",
   "serieschrono-datagouv.csv",
   "../data/serieschrono-datagouv.csv"]

/-- The required columns checked after the header parse
    (app.py line 102). -/
def required_columns : List String :=
  ["Unite_temps", "Zone_geographique", "Valeurs", "Indicateur"]

/-- Model of `str.extract(r'^(\d{2,3})')` applied to a zone name: the
    leading run of digits, truncated to three, provided at least
    two are present; otherwise `NaN`. -/
def extractLeadingDigits (s : String) : Option String :=
  let digits := (s.data.takeWhile Char.isDigit).take 3
  if 2 ≤ digits.length then some (String.mk digits) else none

/-- Model of `str.match(r'^[0-9]{2}$')`: exactly two digit characters. -/
def isTwoDigitCode (s : String) : Bool :=
  s.data.length == 2 && s.data.all Char.isDigit

/-- Python `str.zfill(n)` on an unsigned string: left-pad with
    `'0'` up to length `n`. -/
def zfill (n : Nat) (s : String) : String :=
  if n ≤ s.data.length then s
  else String.mk (List.replicate (n - s.data.length) '0' ++ s.data)

/-- Derivation of `Code_dep` (app.py lines 111-112): when the CSV has
    no `Code_dep` column, it is extracted from the zone name. -/
def deriveCodeDep (hasCodeDep : Bool) (r : RawRow) : RawRow :=
  if hasCodeDep then r
  else { r with codeDep := r.zoneGeographique.bind extractLeadingDigits }

/-- The two `dropna` passes around `pd.to_numeric` (app.py lines
    116-118), fused row-wise: a row survives exactly when all five
    selected cells are present and `Valeurs` coerced to a number.
    The surviving row is returned in typed form (without the final
    `Code_dep` adjustments, which follow). -/
def parseRow (r : RawRow) : Option Record :=
  match r.uniteTemps, r.zoneGeographique, r.valeurs, r.indicateur, r.codeDep with
  | some y, some z, some (some v), some i, some c =>
    some { uniteTemps := y, zoneGeographique := z, valeurs := v,
           indicateur := i, codeDep := c }
  | _, _, _, _, _ => none

/-- The cleaning pipeline of `load_data` in app.py (lines 110-128):
    derive `Code_dep` if the column is absent, drop rows with
    missing or non-numeric cells, keep exactly-two-digit codes,
    zero-fill, and keep codes between `"01"` and `"95"`. -/
def clean_app (csv : RawCSV) : List Record :=
  let hasCodeDep := csv.columns.contains "Code_dep"
  let rows := csv.rows.map (deriveCodeDep hasCodeDep)
  let rows := rows.filterMap parseRow
  let rows := rows.filter fun r => isTwoDigitCode r.codeDep
  let rows := rows.map fun r => { r with codeDep := zfill 2 r.codeDep }
  rows.filter fun r =>
    strLe "01" r.codeDep && strLe r.codeDep "95"

/-- The cleaning pipeline of `load_data` in the notebook script
    (lines 52-58): same drops, no `Code_dep` derivation, and the
    zero-fill applied only inside the `between` filter (the kept
    column is left as read). -/
def clean_nb (rows : List RawRow) : List Record :=
  let rows := rows.filterMap parseRow
  let rows := rows.filter fun r => isTwoDigitCode r.codeDep
  rows.filter fun r =>
    strLe "01" (zfill 2 r.codeDep) && strLe (zfill 2 r.codeDep) "95"

/-- The two failure modes of `load_data` in app.py: every candidate
    path misses (`return None` after the path loop, spec's
    `DataNotFound`), or required columns are absent after the
    header parse (`return None` at the schema check, spec's
    `SchemaError`). -/
inductive LoadError where
  | dataNotFound : LoadError
  | schemaError (missing : List String) : LoadError
deriving DecidableEq

/-- The schema check and cleaning of `load_data` (app.py lines
    101-128) on a parsed CSV: compute the missing required columns,
    fail when the list is nonempty (Python list truthiness), and
    otherwise return the cleaned dataset. -/
def load_from_csv (csv : RawCSV) : Except LoadError (List Record) :=
  match required_columns.filter fun c => !csv.columns.contains c with
  | [] => .ok (clean_app csv)
  | missing_cols => .error (.schemaError missing_cols)

/-- The loader `load_data` (app.py lines 60-132) over an abstract file system
    `read`: try the candidate paths in order, fail if none is
    readable, then check the schema and clean. -/
def load_data (read : String → Option RawCSV) :
    Except LoadError (List Record) :=
  match possible_paths.findSome? read with
  | none => .error .dataNotFound
  | some csv => load_from_csv csv

/-- The data-dependent part of `main` (app.py lines 419-423): load,
    and stop the render pass (`st.stop()`) when `load_data`
    reported an error by returning `None`.  The pass carries a
    dataset only in the success case. -/
def render_pass (read : String → Option RawCSV) : Option (List Record) :=
  match load_data read with
  | .error _ => none
  | .ok df => some df

/-! ### Statistics calculator (`calculate_statistics`) -/

/-- Ascending-by-year comparison used by
    `sort_values('Unite_temps')` on the per-indicator series. -/
def yearLE (a b : Nat × NatRow) : Prop :=
  a.2.uniteTemps ≤ b.2.uniteTemps

instance : DecidableRel yearLE := fun a b => by unfold yearLE; infer_instance

/-- The labelled per-indicator series inside `calculate_statistics`:
    `national_data` carries the row labels `0..n-1` left by
    `reset_index`; the boolean filter keeps labels with their rows,
    and `sort_values('Unite_temps')` orders by year. -/
def series_for (national : List NatRow) (ind : String) :
    List (Nat × NatRow) :=
  List.insertionSort yearLE
    (national.enum.filter fun p => p.2.indicateur == ind)

/-- Model of `Series.max`: the maximum of a (nonempty) numeric series. -/
def series_max : List ℚ → Option ℚ
  | [] => none
  | v :: vs => some (vs.foldl max v)

/-- Model of `Series.min`: the minimum of a (nonempty) numeric series. -/
def series_min : List ℚ → Option ℚ
  | [] => none
  | v :: vs => some (vs.foldl min v)

/-- The field `max_year` as app.py computes it (lines 204-206):
    `Series.idxmax` returns the label of the first row attaining
    the maximum, and `.loc[label, 'Unite_temps']` looks that label
    up again in the frame. -/
def max_year_app (d : List (Nat × NatRow)) : Option Int :=
  match series_max (d.map fun p => p.2.valeurs) with
  | none => none
  | some m =>
    match d.find? fun p => p.2.valeurs == m with
    | none => none
    | some p =>
      match d.find? fun q => q.1 == p.1 with
      | none => none
      | some q => some q.2.uniteTemps

/-- The field `min_year` as app.py computes it (lines 207-209), via
    `Series.idxmin` and `.loc`. -/
def min_year_app (d : List (Nat × NatRow)) : Option Int :=
  match series_min (d.map fun p => p.2.valeurs) with
  | none => none
  | some m =>
    match d.find? fun p => p.2.valeurs == m with
    | none => none
    | some p =>
      match d.find? fun q => q.1 == p.1 with
      | none => none
      | some q => some q.2.uniteTemps

/-- The field `max_year` as the notebook computes it (line 168): boolean mask
    `Valeurs == max_value`, then `.iloc[0]` of the matching years. -/
def max_year_nb (d : List (Nat × NatRow)) : Option Int :=
  match series_max (d.map fun p => p.2.valeurs) with
  | none => none
  | some m =>
    match d.find? fun p => p.2.valeurs == m with
    | none => none
    | some p => some p.2.uniteTemps

/-- The field `min_year` as the notebook computes it (line 169). -/
def min_year_nb (d : List (Nat × NatRow)) : Option Int :=
  match series_min (d.map fun p => p.2.valeurs) with
  | none => none
  | some m =>
    match d.find? fun p => p.2.valeurs == m with
    | none => none
    | some p => some p.2.uniteTemps

/-- The per-indicator summary stored in the `stats` dictionary. -/
structure IndicatorStats where
  first_value : ℚ
  last_value : ℚ
  first_year : Int
  last_year : Int
  evolution_abs : ℚ
  evolution_pct : ℚ
  total_cases : ℚ
  mean_annual : ℚ
  max_value : ℚ
  min_value : ℚ
  max_year : Int
  min_year : Int
deriving DecidableEq

/-- The body of the `for indicator in selected_indicators` loop in
    app.py (lines 177-210): sort the indicator's series by year,
    and when it has more than one row (`len(indicator_data) > 1`)
    compute the summary; otherwise contribute nothing. -/
def calc_indicator (national : List NatRow) (ind : String) :
    Option IndicatorStats :=
  match series_for national ind with
  | [] => none
  | [_] => none
  | p0 :: p1 :: rest =>
    let d := p0 :: p1 :: rest
    let last_row := (p1 :: rest).getLast (List.cons_ne_nil p1 rest)
    let first_value := p0.2.valeurs
    let last_value := last_row.2.valeurs
    let vals := d.map fun p => p.2.valeurs
    some
      { first_value := first_value
        last_value := last_value
        first_year := p0.2.uniteTemps
        last_year := last_row.2.uniteTemps
        evolution_abs := last_value - first_value
        evolution_pct :=
          if first_value ≠ 0 then (last_value - first_value) / first_value * 100
          else 0
        total_cases := vals.sum
        mean_annual := vals.sum / (vals.length : ℚ)
        max_value := ((p1 :: rest).map fun p => p.2.valeurs).foldl max p0.2.valeurs
        min_value := ((p1 :: rest).map fun p => p.2.valeurs).foldl min p0.2.valeurs
        max_year := (max_year_app d).getD 0
        min_year := (min_year_app d).getD 0 }

/-- The loop body of the notebook's `calculate_statistics` (lines
    152-184): identical to app.py's except for the `max_year` /
    `min_year` tie-break. -/
def calc_indicator_nb (national : List NatRow) (ind : String) :
    Option IndicatorStats :=
  match series_for national ind with
  | [] => none
  | [_] => none
  | p0 :: p1 :: rest =>
    let d := p0 :: p1 :: rest
    let last_row := (p1 :: rest).getLast (List.cons_ne_nil p1 rest)
    let first_value := p0.2.valeurs
    let last_value := last_row.2.valeurs
    let vals := d.map fun p => p.2.valeurs
    some
      { first_value := first_value
        last_value := last_value
        first_year := p0.2.uniteTemps
        last_year := last_row.2.uniteTemps
        evolution_abs := last_value - first_value
        evolution_pct :=
          if first_value ≠ 0 then (last_value - first_value) / first_value * 100
          else 0
        total_cases := vals.sum
        mean_annual := vals.sum / (vals.length : ℚ)
        max_value := ((p1 :: rest).map fun p => p.2.valeurs).foldl max p0.2.valeurs
        min_value := ((p1 :: rest).map fun p => p.2.valeurs).foldl min p0.2.valeurs
        max_year := (max_year_nb d).getD 0
        min_year := (min_year_nb d).getD 0 }

/-- The function `calculate_statistics` of app.py (lines 163-212).  The Python
    `stats` dictionary, keyed by indicator in loop order, is
    modelled as an association list. -/
def calculate_statistics (national : List NatRow)
    (selected_indicators : List String) :
    List (String × IndicatorStats) :=
  selected_indicators.filterMap fun ind =>
    (calc_indicator national ind).map fun st => (ind, st)

/-- The function `calculate_statistics` of the notebook script (lines 148-186). -/
def calculate_statistics_nb (national : List NatRow)
    (selected_indicators : List String) :
    List (String × IndicatorStats) :=
  selected_indicators.filterMap fun ind =>
    (calc_indicator_nb national ind).map fun st => (ind, st)

/-! ### Basic facts about the string order -/

lemma strLeAux_cons {a b : Char} {as bs : List Char} :
    strLeAux (a :: as) (b :: bs) = true ↔
      a.toNat < b.toNat ∨ (a.toNat = b.toNat ∧ strLeAux as bs = true) := by
  have hunf : strLeAux (a :: as) (b :: bs) =
      if a.toNat < b.toNat then true
      else if b.toNat < a.toNat then false
      else strLeAux as bs := rfl
  rw [hunf]
  by_cases h1 : a.toNat < b.toNat
  · rw [if_pos h1]
    exact iff_of_true rfl (Or.inl h1)
  · by_cases h2 : b.toNat < a.toNat
    · rw [if_neg h1, if_pos h2]
      simp only [Bool.false_eq_true, false_iff]
      rintro (h | ⟨he, -⟩) <;> omega
    · rw [if_neg h1, if_neg h2]
      have he : a.toNat = b.toNat := by omega
      constructor
      · intro h; exact Or.inr ⟨he, h⟩
      · rintro (h | ⟨-, h⟩)
        · omega
        · exact h

lemma strLeAux_total (as bs : List Char) :
    strLeAux as bs = true ∨ strLeAux bs as = true := by
  induction as generalizing bs with
  | nil => left; rfl
  | cons a as ih =>
    cases bs with
    | nil => right; rfl
    | cons b bs =>
      rcases Nat.lt_trichotomy a.toNat b.toNat with h | h | h
      · left; rw [strLeAux_cons]; exact Or.inl h
      · rcases ih bs with h' | h'
        · left; rw [strLeAux_cons]; exact Or.inr ⟨h, h'⟩
        · right; rw [strLeAux_cons]; exact Or.inr ⟨h.symm, h'⟩
      · right; rw [strLeAux_cons]; exact Or.inl h

lemma strLeAux_trans {as bs cs : List Char} (h1 : strLeAux as bs = true)
    (h2 : strLeAux bs cs = true) : strLeAux as cs = true := by
  induction as generalizing bs cs with
  | nil => rfl
  | cons a as ih =>
    cases bs with
    | nil => simp [strLeAux] at h1
    | cons b bs =>
      cases cs with
      | nil => simp [strLeAux] at h2
      | cons c cs =>
        rw [strLeAux_cons] at h1 h2 ⊢
        rcases h1 with h1 | ⟨h1e, h1r⟩ <;> rcases h2 with h2 | ⟨h2e, h2r⟩
        · exact Or.inl (h1.trans h2)
        · exact Or.inl (h2e ▸ h1)
        · exact Or.inl (h1e ▸ h2)
        · exact Or.inr ⟨h1e.trans h2e, ih h1r h2r⟩

lemma strLe_total (a b : String) : strLe a b = true ∨ strLe b a = true :=
  strLeAux_total a.data b.data

lemma strLe_trans {a b c : String} (h1 : strLe a b = true)
    (h2 : strLe b c = true) : strLe a c = true :=
  strLeAux_trans h1 h2

instance : IsTotal String zoneLE := ⟨fun a b => strLe_total a b⟩

instance : IsTrans String zoneLE := ⟨fun _ _ _ => strLe_trans⟩

instance : IsTotal DeptRow deptGE :=
  ⟨fun a b => by unfold deptGE; exact le_total b.valeurs a.valeurs⟩

instance : IsTrans DeptRow deptGE :=
  ⟨fun _ _ _ h1 h2 => by unfold deptGE at h1 h2 ⊢; exact le_trans h2 h1⟩

instance : IsTotal (Nat × NatRow) yearLE :=
  ⟨fun a b => by unfold yearLE; exact le_total a.2.uniteTemps b.2.uniteTemps⟩

instance : IsTrans (Nat × NatRow) yearLE :=
  ⟨fun _ _ _ h1 h2 => by unfold yearLE at h1 h2 ⊢; exact le_trans h1 h2⟩

/-! ### Partition / fiberwise-sum facts -/

lemma sum_filter_add_sum_filter_not {α : Type} (l : List α) (p : α → Bool)
    (val : α → ℚ) :
    ((l.filter p).map val).sum + ((l.filter fun a => !(p a)).map val).sum =
      (l.map val).sum := by
  induction l with
  | nil => simp
  | cons a l ih =>
    cases hp : p a
    · simp only [List.filter_cons, hp, Bool.not_false, if_true,
        Bool.false_eq_true, if_false, List.map_cons, List.sum_cons]
      rw [← ih]; ring
    · simp only [List.filter_cons, hp, Bool.not_true, if_true,
        Bool.false_eq_true, if_false, List.map_cons, List.sum_cons]
      rw [← ih]; ring

/-- Summing the per-fiber sums over a duplicate-free list of keys
    that covers a list recovers the list's total sum. -/
lemma sum_fiberwise {α κ : Type} (key : α → κ) (val : α → ℚ)
    (p : κ → α → Bool) (hp : ∀ k a, p k a = true ↔ key a = k) :
    ∀ (ks : List κ) (l : List α), ks.Nodup → (∀ a ∈ l, key a ∈ ks) →
      (ks.map fun k => ((l.filter (p k)).map val).sum).sum =
        (l.map val).sum := by
  intro ks
  induction ks with
  | nil =>
    intro l _ hcov
    have : l = [] := List.eq_nil_iff_forall_not_mem.mpr fun a ha =>
      (List.not_mem_nil _ (hcov a ha))
    simp [this]
  | cons k ks ih =>
    intro l hnd hcov
    have hknotin : k ∉ ks := (List.nodup_cons.mp hnd).1
    have hndks : ks.Nodup := (List.nodup_cons.mp hnd).2
    have hrest : ∀ k' ∈ ks,
        ((l.filter (p k')).map val).sum =
          (((l.filter fun a => !(p k a)).filter (p k')).map val).sum := by
      intro k' hk'
      rw [List.filter_filter]
      have heq : l.filter (p k') =
          l.filter fun a => p k' a && !(p k a) := by
        apply List.filter_congr
        intro a _
        cases hpa : p k' a
        · simp
        · have hkey : key a = k' := (hp k' a).mp hpa
          have hpk : p k a = false := by
            cases hpka : p k a
            · rfl
            · exfalso
              exact hknotin (((hp k a).mp hpka ▸ hkey) ▸ hk')
          simp [hpk]
      rw [← heq]
    have hcov' : ∀ a ∈ (l.filter fun a => !(p k a)), key a ∈ ks := by
      intro a ha
      rcases List.mem_filter.mp ha with ⟨hal, hpa⟩
      rcases List.mem_cons.mp (hcov a hal) with hk | hks
      · exfalso
        have : p k a = true := (hp k a).mpr hk
        rw [this] at hpa
        simp at hpa
      · exact hks
    rw [List.map_cons, List.sum_cons, List.map_congr_left hrest,
      ih (l.filter fun a => !(p k a)) hndks hcov']
    exact sum_filter_add_sum_filter_not l (p k) val

/-! ### Group-key facts -/

/-- The rows matching both the indicator selection and the year
    selection (the `filtered_df` of `get_national_statistics`). -/
def matching_rows (df : List Record) (inds : List String)
    (yrs : List Int) : List Record :=
  df.filter fun r =>
    inds.contains r.indicateur && yrs.contains r.uniteTemps

lemma get_national_statistics_eq (df : List Record) (inds : List String)
    (yrs : List Int) :
    get_national_statistics df inds yrs =
      (natKeys (matching_rows df inds yrs)).map fun k =>
        { uniteTemps := k.1
          indicateur := k.2
          valeurs := (((matching_rows df inds yrs).filter
            fun r => natKey r = k).map fun r => r.valeurs).sum } := rfl

lemma natKeys_perm (rows : List Record) :
    (natKeys rows).Perm (rows.map natKey).dedup :=
  List.perm_insertionSort _ _

lemma natKeys_nodup (rows : List Record) : (natKeys rows).Nodup :=
  ((natKeys_perm rows).nodup_iff).mpr (List.nodup_dedup _)

lemma mem_natKeys {rows : List Record} {k : Int × String} :
    k ∈ natKeys rows ↔ ∃ r ∈ rows, natKey r = k := by
  rw [(natKeys_perm rows).mem_iff, List.mem_dedup, List.mem_map]

lemma national_map_key (df : List Record) (inds : List String)
    (yrs : List Int) :
    (get_national_statistics df inds yrs).map
        (fun nr => (nr.uniteTemps, nr.indicateur)) =
      natKeys (matching_rows df inds yrs) := by
  rw [get_national_statistics_eq, List.map_map]
  have : ((fun nr : NatRow => (nr.uniteTemps, nr.indicateur)) ∘
      fun k : Int × String =>
        ({ uniteTemps := k.1, indicateur := k.2,
           valeurs := (((matching_rows df inds yrs).filter
             fun r => natKey r = k).map fun r => r.valeurs).sum } : NatRow)) =
      id := by
    funext k
    simp
  rw [this, List.map_id]

lemma zoneKeys_perm (rows : List Record) :
    (zoneKeys rows).Perm (rows.map fun r => r.zoneGeographique).dedup :=
  List.perm_insertionSort _ _

lemma zoneKeys_nodup (rows : List Record) : (zoneKeys rows).Nodup :=
  ((zoneKeys_perm rows).nodup_iff).mpr (List.nodup_dedup _)

lemma mem_zoneKeys {rows : List Record} {z : String} :
    z ∈ zoneKeys rows ↔ ∃ r ∈ rows, r.zoneGeographique = z := by
  rw [(zoneKeys_perm rows).mem_iff, List.mem_dedup, List.mem_map]

/-! ### Labelled-series facts -/

lemma series_for_perm (national : List NatRow) (ind : String) :
    (series_for national ind).Perm
      (national.enum.filter fun p => p.2.indicateur == ind) :=
  List.perm_insertionSort _ _

lemma series_for_labels_nodup (national : List NatRow) (ind : String) :
    ((series_for national ind).map Prod.fst).Nodup := by
  have hsub : ((national.enum.filter fun p => p.2.indicateur == ind).map
      Prod.fst).Sublist (national.enum.map Prod.fst) :=
    (List.filter_sublist _).map _
  have h1 : (national.enum.map Prod.fst).Nodup := by
    rw [List.enum_map_fst]; exact List.nodup_range _
  have h2 := List.Nodup.sublist hsub h1
  exact (((series_for_perm national ind).map Prod.fst).nodup_iff).mpr h2

lemma find?_label_self {d : List (Nat × NatRow)}
    (hnd : (d.map Prod.fst).Nodup) {p : Nat × NatRow} (hp : p ∈ d) :
    d.find? (fun q => q.1 == p.1) = some p := by
  induction d with
  | nil => cases hp
  | cons x t ih =>
    rcases List.mem_cons.mp hp with hx | ht
    · subst hx
      simp [List.find?_cons]
    · have hx1 : (x.1 == p.1) = false := by
        cases hbe : x.1 == p.1
        · rfl
        · exfalso
          have : x.1 = p.1 := by exact_mod_cast beq_iff_eq.mp hbe
          have hmem : p.1 ∈ t.map Prod.fst := List.mem_map_of_mem Prod.fst ht
          rw [List.map_cons, List.nodup_cons] at hnd
          exact hnd.1 (this ▸ hmem)
      rw [List.find?_cons, hx1]
      exact ih (by rw [List.map_cons, List.nodup_cons] at hnd; exact hnd.2) ht

lemma foldl_max_mem (vs : List ℚ) (v : ℚ) :
    vs.foldl max v = v ∨ vs.foldl max v ∈ vs := by
  induction vs generalizing v with
  | nil => left; rfl
  | cons w vs ih =>
    rcases ih (max v w) with h | h
    · rcases max_choice v w with hm | hm
      · left; rw [List.foldl_cons, h, hm]
      · right; rw [List.foldl_cons, h, hm]; exact List.mem_cons_self _ _
    · right; exact List.mem_cons_of_mem _ h

lemma foldl_min_mem (vs : List ℚ) (v : ℚ) :
    vs.foldl min v = v ∨ vs.foldl min v ∈ vs := by
  induction vs generalizing v with
  | nil => left; rfl
  | cons w vs ih =>
    rcases ih (min v w) with h | h
    · rcases min_choice v w with hm | hm
      · left; rw [List.foldl_cons, h, hm]
      · right; rw [List.foldl_cons, h, hm]; exact List.mem_cons_self _ _
    · right; exact List.mem_cons_of_mem _ h

lemma series_max_mem {l : List ℚ} {m : ℚ} (h : series_max l = some m) :
    m ∈ l := by
  cases l with
  | nil => simp [series_max] at h
  | cons v vs =>
    have hm : m = vs.foldl max v := by
      simp [series_max] at h; exact h.symm
    rcases foldl_max_mem vs v with h' | h'
    · rw [hm, h']; exact List.mem_cons_self _ _
    · rw [hm]; exact List.mem_cons_of_mem _ h'

lemma series_min_mem {l : List ℚ} {m : ℚ} (h : series_min l = some m) :
    m ∈ l := by
  cases l with
  | nil => simp [series_min] at h
  | cons v vs =>
    have hm : m = vs.foldl min v := by
      simp [series_min] at h; exact h.symm
    rcases foldl_min_mem vs v with h' | h'
    · rw [hm, h']; exact List.mem_cons_self _ _
    · rw [hm]; exact List.mem_cons_of_mem _ h'

lemma max_year_app_eq_nb {d : List (Nat × NatRow)}
    (hnd : (d.map Prod.fst).Nodup) : max_year_app d = max_year_nb d := by
  unfold max_year_app max_year_nb
  cases hm : series_max (d.map fun p => p.2.valeurs) with
  | none => rfl
  | some m =>
    cases hf : d.find? fun p => p.2.valeurs == m with
    | none => simp [hf]
    | some p0 =>
      simp [hf, find?_label_self hnd (List.mem_of_find?_eq_some hf)]

lemma min_year_app_eq_nb {d : List (Nat × NatRow)}
    (hnd : (d.map Prod.fst).Nodup) : min_year_app d = min_year_nb d := by
  unfold min_year_app min_year_nb
  cases hm : series_min (d.map fun p => p.2.valeurs) with
  | none => rfl
  | some m =>
    cases hf : d.find? fun p => p.2.valeurs == m with
    | none => simp [hf]
    | some p0 =>
      simp [hf, find?_label_self hnd (List.mem_of_find?_eq_some hf)]

/-! ### Loader facts -/

lemma parseRow_codeDep {r : RawRow} {rec : Record}
    (h : parseRow r = some rec) : r.codeDep = some rec.codeDep := by
  obtain ⟨y, z, v, i, c⟩ := r
  rcases y with - | y
  · simp [parseRow] at h
  rcases z with - | z
  · simp [parseRow] at h
  rcases v with - | v
  · simp [parseRow] at h
  rcases v with - | v
  · simp [parseRow] at h
  rcases i with - | i
  · simp [parseRow] at h
  rcases c with - | c
  · simp [parseRow] at h
  simp only [parseRow, Option.some.injEq] at h
  rw [← h]

lemma band_eq_true {a b : Bool} (h : (a && b) = true) :
    a = true ∧ b = true := by
  cases a <;> cases b <;> simp_all

lemma isTwoDigitCode_length {s : String}
    (h : isTwoDigitCode s = true) : s.data.length = 2 := by
  unfold isTwoDigitCode at h
  rcases band_eq_true h with ⟨h1, -⟩
  exact beq_iff_eq.mp h1

lemma isTwoDigitCode_digits {s : String}
    (h : isTwoDigitCode s = true) : ∀ ch ∈ s.data, ch.isDigit = true := by
  unfold isTwoDigitCode at h
  rcases band_eq_true h with ⟨-, h2⟩
  exact fun ch hch => List.all_eq_true.mp h2 ch hch

lemma zfill_two_of_length_two {s : String} (h : s.data.length = 2) :
    zfill 2 s = s := by
  unfold zfill
  rw [if_pos (le_of_eq h.symm)]

/-- Cleaned rows of the app.py loader: two-digit codes inside
    `["01", "95"]`, each code taken verbatim from a raw row
    (possibly with its code derived from the zone name). -/
lemma mem_clean_app {csv : RawCSV} {c : Record} (hc : c ∈ clean_app csv) :
    isTwoDigitCode c.codeDep = true ∧
      strLe "01" c.codeDep = true ∧ strLe c.codeDep "95" = true ∧
      ∃ r ∈ csv.rows,
        (deriveCodeDep (csv.columns.contains "Code_dep") r).codeDep =
          some c.codeDep := by
  simp only [clean_app] at hc
  rcases List.mem_filter.mp hc with ⟨hc1, hbet⟩
  rcases List.mem_map.mp hc1 with ⟨m, hm, hcm⟩
  rcases List.mem_filter.mp hm with ⟨hm1, htwo⟩
  rcases List.mem_filterMap.mp hm1 with ⟨raw, hraw, hparse⟩
  rcases List.mem_map.mp hraw with ⟨r0, hr0, hder⟩
  have hzf : zfill 2 m.codeDep = m.codeDep :=
    zfill_two_of_length_two (isTwoDigitCode_length htwo)
  have hcd : c.codeDep = m.codeDep := by
    rw [← hcm, hzf]
  rcases band_eq_true hbet with ⟨hlo, hhi⟩
  refine ⟨hcd ▸ htwo, hlo, hhi, r0, hr0, ?_⟩
  rw [hder, parseRow_codeDep hparse, hcd]

/-- Cleaned rows of the notebook loader: same invariant; the code
    is taken verbatim from the raw row. -/
lemma mem_clean_nb {rows : List RawRow} {c : Record} (hc : c ∈ clean_nb rows) :
    isTwoDigitCode c.codeDep = true ∧
      strLe "01" c.codeDep = true ∧ strLe c.codeDep "95" = true ∧
      ∃ r ∈ rows, r.codeDep = some c.codeDep := by
  simp only [clean_nb] at hc
  rcases List.mem_filter.mp hc with ⟨hc1, hbet⟩
  rcases List.mem_filter.mp hc1 with ⟨hc2, htwo⟩
  rcases List.mem_filterMap.mp hc2 with ⟨raw, hraw, hparse⟩
  have hzf : zfill 2 c.codeDep = c.codeDep :=
    zfill_two_of_length_two (isTwoDigitCode_length htwo)
  rw [hzf] at hbet
  rcases band_eq_true hbet with ⟨hlo, hhi⟩
  exact ⟨htwo, hlo, hhi, raw, hraw, parseRow_codeDep hparse⟩

lemma load_data_none {read : String → Option RawCSV}
    (h : possible_paths.findSome? read = none) :
    load_data read = .error .dataNotFound := by
  unfold load_data
  rw [h]

lemma load_data_some {read : String → Option RawCSV} {csv : RawCSV}
    (h : possible_paths.findSome? read = some csv) :
    load_data read = load_from_csv csv := by
  unfold load_data
  rw [h]

lemma load_from_csv_ok {csv : RawCSV} {df : List Record}
    (h : load_from_csv csv = .ok df) : df = clean_app csv := by
  unfold load_from_csv at h
  cases hml : required_columns.filter fun c => !csv.columns.contains c with
  | nil =>
    rw [hml] at h
    exact (Except.ok.inj h).symm
  | cons a t =>
    rw [hml] at h
    exact Except.noConfusion h

/-! ### Statistics-calculator facts -/

lemma lookup_calculate_statistics {national : List NatRow}
    {inds : List String} {ind : String} {st : IndicatorStats}
    (h : (calculate_statistics national inds).lookup ind = some st) :
    calc_indicator national ind = some st := by
  induction inds with
  | nil => exact Option.noConfusion h
  | cons i is ih =>
    rw [calculate_statistics, List.filterMap_cons] at h
    cases hci : calc_indicator national i
    · rw [hci] at h
      simp only [Option.map_none'] at h
      exact ih h
    · rw [hci] at h
      simp only [Option.map_some'] at h
      simp only [List.lookup] at h
      cases hbe : ind == i
      · rw [hbe] at h
        exact ih h
      · rw [hbe] at h
        injection h with h
        rw [beq_iff_eq.mp hbe, hci, h]

lemma lookup_isSome_calculate_statistics (national : List NatRow)
    (inds : List String) (ind : String) :
    ((calculate_statistics national inds).lookup ind).isSome = true ↔
      ind ∈ inds ∧ (calc_indicator national ind).isSome = true := by
  induction inds with
  | nil => simp [calculate_statistics]
  | cons i is ih =>
    rw [calculate_statistics, List.filterMap_cons]
    rw [calculate_statistics] at ih
    cases hci : calc_indicator national i
    · simp only [Option.map_none']
      rw [ih]
      constructor
      · rintro ⟨hmem, hsome⟩
        exact ⟨List.mem_cons_of_mem i hmem, hsome⟩
      · rintro ⟨hmem, hsome⟩
        rcases List.mem_cons.mp hmem with rfl | hmem2
        · rw [hci] at hsome
          exact absurd hsome (by simp)
        · exact ⟨hmem2, hsome⟩
    · simp only [Option.map_some']
      simp only [List.lookup]
      cases hbe : ind == i
      · rw [ih]
        have hne : ind ≠ i := fun hcon => by
          rw [hcon] at hbe
          simp at hbe
        constructor
        · rintro ⟨hmem, hsome⟩
          exact ⟨List.mem_cons_of_mem i hmem, hsome⟩
        · rintro ⟨hmem, hsome⟩
          rcases List.mem_cons.mp hmem with rfl | hmem2
          · exact absurd rfl hne
          · exact ⟨hmem2, hsome⟩
      · have heq : ind = i := beq_iff_eq.mp hbe
        subst heq
        simp [hci]

lemma calc_indicator_isSome_iff (national : List NatRow) (ind : String) :
    (calc_indicator national ind).isSome = true ↔
      1 < (series_for national ind).length := by
  unfold calc_indicator
  cases hs : series_for national ind with
  | nil => simp
  | cons p0 t =>
    cases t with
    | nil => simp
    | cons p1 rest =>
      simp only [Option.isSome_some, List.length_cons, true_iff]
      omega

lemma calc_indicator_spec {national : List NatRow} {ind : String}
    {st : IndicatorStats} (h : calc_indicator national ind = some st) :
    ((series_for national ind).map fun p => p.2.valeurs).head? =
        some st.first_value ∧
      ((series_for national ind).map fun p => p.2.valeurs).getLast? =
        some st.last_value ∧
      st.evolution_pct =
        (if st.first_value ≠ 0 then
          (st.last_value - st.first_value) / st.first_value * 100
         else 0) := by
  unfold calc_indicator at h
  cases hs : series_for national ind with
  | nil =>
    rw [hs] at h
    exact Option.noConfusion h
  | cons p0 t =>
    cases t with
    | nil =>
      rw [hs] at h
      exact Option.noConfusion h
    | cons p1 rest =>
      rw [hs] at h
      injection h with h
      subst h
      refine ⟨rfl, ?_, ?_⟩
      · rw [List.getLast?_map,
          List.getLast?_eq_getLast _ (List.cons_ne_nil p0 (p1 :: rest)),
          List.getLast_cons (List.cons_ne_nil p1 rest)]
        rfl
      · rfl

lemma series_for_length (national : List NatRow) (ind : String) :
    (series_for national ind).length =
      (national.filter fun nr => nr.indicateur == ind).length := by
  rw [(series_for_perm national ind).length_eq]
  have haux : ∀ (n : Nat) (l : List NatRow),
      ((List.enumFrom n l).filter fun q => q.2.indicateur == ind).length =
        (l.filter fun nr => nr.indicateur == ind).length := by
    intro n l
    induction l generalizing n with
    | nil => rfl
    | cons x t ih =>
      rw [List.enumFrom_cons]
      cases hx : x.indicateur == ind <;>
        simp [List.filter_cons, hx, ih]
  rw [List.enum_eq_enumFrom]
  exact haux 0 national

lemma national_filter_ind (df : List Record) (inds : List String)
    (yrs : List Int) (ind : String) :
    (get_national_statistics df inds yrs).filter
        (fun nr => nr.indicateur == ind) =
      ((natKeys (matching_rows df inds yrs)).filter
        fun k => k.2 == ind).map fun k =>
          ({ uniteTemps := k.1
             indicateur := k.2
             valeurs := (((matching_rows df inds yrs).filter
               fun r => natKey r = k).map fun r => r.valeurs).sum } :
            NatRow) := by
  rw [get_national_statistics_eq, List.filter_map]
  rfl

lemma one_lt_length_iff {α : Type} {l : List α} (h : l.Nodup) :
    1 < l.length ↔ ∃ a ∈ l, ∃ b ∈ l, a ≠ b := by
  constructor
  · intro hl
    match l, h, hl with
    | a :: b :: t, h, _ =>
      refine ⟨a, List.mem_cons_self _ _, b,
        List.mem_cons_of_mem a (List.mem_cons_self _ _), ?_⟩
      rcases List.nodup_cons.mp h with ⟨hna, -⟩
      intro hab
      exact hna (hab ▸ List.mem_cons_self _ _)
  · rintro ⟨a, ha, b, hb, hab⟩
    match l, ha, hb with
    | [], ha, _ => cases ha
    | [x], ha, hb =>
      rw [List.mem_singleton] at ha hb
      exact absurd (ha.trans hb.symm) hab
    | _ :: _ :: t, _, _ =>
      simp only [List.length_cons]
      omega

lemma calc_indicator_eq_nb (national : List NatRow) (ind : String) :
    calc_indicator national ind = calc_indicator_nb national ind := by
  have hnd : ((series_for national ind).map Prod.fst).Nodup :=
    series_for_labels_nodup national ind
  unfold calc_indicator calc_indicator_nb
  cases hs : series_for national ind with
  | nil => rfl
  | cons p0 t =>
    cases t with
    | nil => rfl
    | cons p1 rest =>
      rw [hs] at hnd
      have hmax : max_year_app (p0 :: p1 :: rest) =
          max_year_nb (p0 :: p1 :: rest) := max_year_app_eq_nb hnd
      have hmin : min_year_app (p0 :: p1 :: rest) =
          min_year_nb (p0 :: p1 :: rest) := min_year_app_eq_nb hnd
      simp [IndicatorStats.mk.injEq, hmax, hmin]

/-! ### Example data -/

/-- The first row of the specification's example dataset. -/
def exampleRow0 : Record :=
  { uniteTemps := 2016, zoneGeographique := "01", valeurs := 10,
    indicateur := "Vol", codeDep := "01" }

/-- The three-row example dataset of the specification (§8). -/
def exampleRows : List Record :=
  [{ uniteTemps := 2016, zoneGeographique := "01", valeurs := 10,
     indicateur := "Vol", codeDep := "01" },
   { uniteTemps := 2017, zoneGeographique := "01", valeurs := 15,
     indicateur := "Vol", codeDep := "01" },
   { uniteTemps := 2016, zoneGeographique := "02", valeurs := 5,
     indicateur := "Vol", codeDep := "02" }]

/-- Two rows with equal values whose zones appear in the input in
    descending alphabetical order. -/
def tieRows : List Record :=
  [{ uniteTemps := 2020, zoneGeographique := "B", valeurs := 5,
     indicateur := "X", codeDep := "10" },
   { uniteTemps := 2020, zoneGeographique := "A", valeurs := 5,
     indicateur := "X", codeDep := "11" }]

/-- A one-row dataset. -/
def oneRow : List Record :=
  [{ uniteTemps := 2016, zoneGeographique := "01", valeurs := 7,
     indicateur := "Vol", codeDep := "01" }]

/-- A ranking computed on `oneRow`, shared by the witnesses below. -/
lemma oneRow_dept :
    create_departmental_analysis oneRow "Vol" 2016 =
      some [{ zoneGeographique := "01", valeurs := 7 }] := by
  norm_num +decide [create_departmental_analysis, oneRow, zoneKeys,
    zoneLE, List.insertionSort, List.orderedInsert, deptGE, strLe,
    strLeAux, List.dedup]

/-! ### C1: national aggregation -/

/-- C1: `get_national_statistics` returns exactly one row per
    (year, indicator) pair occurring among the rows matching both
    selections, with value the sum of those rows' values; pairs
    with no matching rows are absent, and a selection matching no
    rows yields the empty table (not an error). -/
theorem national_aggregation_rows (df : List Record)
    (inds : List String) (yrs : List Int) :
    ((get_national_statistics df inds yrs).map
        (fun nr => (nr.uniteTemps, nr.indicateur))).Nodup ∧
    (∀ (y : Int) (i : String),
      (y, i) ∈ (get_national_statistics df inds yrs).map
          (fun nr => (nr.uniteTemps, nr.indicateur)) ↔
        ∃ r ∈ matching_rows df inds yrs,
          r.uniteTemps = y ∧ r.indicateur = i) ∧
    (∀ nr ∈ get_national_statistics df inds yrs,
      nr.valeurs = (((matching_rows df inds yrs).filter fun r =>
        r.uniteTemps == nr.uniteTemps && r.indicateur == nr.indicateur).map
          fun r => r.valeurs).sum) ∧
    (matching_rows df inds yrs = [] →
      get_national_statistics df inds yrs = []) := by
  refine ⟨?_, ?_, ?_, ?_⟩
  · rw [national_map_key]
    exact natKeys_nodup _
  · intro y i
    rw [national_map_key, mem_natKeys]
    constructor
    · rintro ⟨r, hr, hk⟩
      refine ⟨r, hr, ?_, ?_⟩
      · exact congrArg Prod.fst hk
      · exact congrArg Prod.snd hk
    · rintro ⟨r, hr, hy, hi⟩
      exact ⟨r, hr, by rw [natKey, hy, hi]⟩
  · intro nr hnr
    rw [get_national_statistics_eq] at hnr
    rcases List.mem_map.mp hnr with ⟨k, hk, hmk⟩
    subst hmk
    show (((matching_rows df inds yrs).filter fun r =>
        natKey r = k).map fun r => r.valeurs).sum = _
    congr 1
    congr 1
    apply List.filter_congr
    intro r _
    by_cases h1 : r.uniteTemps = k.1
    · by_cases h2 : r.indicateur = k.2
      · have hk' : natKey r = k := by
          rw [natKey, h1, h2]
        simp [hk', h1, h2]
      · have hk' : natKey r ≠ k := by
          rw [natKey]
          intro hc
          exact h2 (congrArg Prod.snd hc)
        simp [hk', h1, h2]
    · have hk' : natKey r ≠ k := by
        rw [natKey]
        intro hc
        exact h1 (congrArg Prod.fst hc)
      simp [hk', h1]
  · intro h
    rw [get_national_statistics_eq, h]
    rfl

/-- C1 witness: on the example dataset, the pair (2016, "Vol") is
    produced, and the empty year selection yields the empty table. -/
theorem national_aggregation_rows_witness :
    ((2016, "Vol") ∈ (get_national_statistics exampleRows ["Vol"] [2016]).map
        (fun nr => (nr.uniteTemps, nr.indicateur))) ∧
      get_national_statistics exampleRows ["Vol"] [] = [] := by
  constructor
  · refine ((national_aggregation_rows exampleRows ["Vol"] [2016]).2.1
      2016 "Vol").mpr ⟨exampleRow0, ?_, rfl, rfl⟩
    simp [matching_rows, exampleRows, exampleRow0]
  · refine (national_aggregation_rows exampleRows ["Vol"] []).2.2.2 ?_
    simp [matching_rows, exampleRows]

/-- Key-level form of the year-partition fact: summing the
    per-(year, indicator) fiber sums over the keys of a given year
    recovers the direct sum over that year's rows. -/
lemma national_year_slice (rows : List Record) (y : Int) :
    (((natKeys rows).filter fun k => k.1 == y).map fun k =>
        ((rows.filter fun r => natKey r = k).map fun r => r.valeurs).sum).sum =
      ((rows.filter fun r => r.uniteTemps == y).map fun r => r.valeurs).sum := by
  have hfib : ∀ k ∈ (natKeys rows).filter fun k => k.1 == y,
      ((rows.filter fun r => natKey r = k).map fun r => r.valeurs).sum =
        (((rows.filter fun r => r.uniteTemps == y).filter
          fun r => natKey r = k).map fun r => r.valeurs).sum := by
    intro k hkmem
    rcases List.mem_filter.mp hkmem with ⟨-, hky⟩
    have hky2 : k.1 = y := beq_iff_eq.mp hky
    rw [List.filter_filter]
    congr 1
    congr 1
    apply List.filter_congr
    intro r _
    by_cases hkr : natKey r = k
    · have hry : r.uniteTemps = y := by
        rw [← hky2]
        exact congrArg Prod.fst hkr
      simp [hkr, hry]
    · simp [hkr]
  rw [List.map_congr_left hfib]
  apply sum_fiberwise natKey (fun r => r.valeurs)
    (fun k r => decide (natKey r = k)) (fun k a => by simp)
  · exact ((natKeys_nodup rows).filter _)
  · intro r hr
    rcases List.mem_filter.mp hr with ⟨hrm, hry⟩
    exact List.mem_filter.mpr ⟨mem_natKeys.mpr ⟨r, hrm, rfl⟩, hry⟩

/-! ### C7: partition of the national sums by year -/

/-- C7: for each year, summing the per-(year, indicator) national
    aggregates over all indicators appearing in that year equals
    the direct sum over the filtered rows of that year. -/
theorem national_aggregation_partition (df : List Record)
    (inds : List String) (yrs : List Int) (y : Int) :
    (((get_national_statistics df inds yrs).filter fun nr =>
        nr.uniteTemps == y).map fun nr => nr.valeurs).sum =
      (((matching_rows df inds yrs).filter fun r =>
        r.uniteTemps == y).map fun r => r.valeurs).sum := by
  rw [get_national_statistics_eq, List.filter_map, List.map_map]
  exact national_year_slice (matching_rows df inds yrs) y

/-! ### C10: the departmental ranking preserves the total -/

/-- C10: when at least one row matches, the values of the
    departmental ranking sum to the total of all matching rows. -/
theorem departmental_sum_preserved (df : List Record) (ind : String)
    (yr : Int) (l : List DeptRow)
    (h : create_departmental_analysis df ind yr = some l) :
    (l.map fun d => d.valeurs).sum =
      (((df.filter fun r =>
        r.indicateur == ind && r.uniteTemps == yr)).map
          fun r => r.valeurs).sum := by
  simp only [create_departmental_analysis] at h
  by_cases he : (df.filter fun r =>
      r.indicateur == ind && r.uniteTemps == yr).isEmpty
  · rw [if_pos he] at h
    exact Option.noConfusion h
  · rw [if_neg he] at h
    injection h with h
    subst h
    rw [((List.perm_insertionSort deptGE _).map
      (fun d : DeptRow => d.valeurs)).sum_eq, List.map_map]
    exact sum_fiberwise (fun r : Record => r.zoneGeographique)
      (fun r => r.valeurs) (fun z r => r.zoneGeographique == z)
      (fun z r => beq_iff_eq) _ _ (zoneKeys_nodup _)
      (fun r hr => mem_zoneKeys.mpr ⟨r, hr, rfl⟩)

/-- C10 witness: on the one-row dataset the ranking total equals
    the matching-row total. -/
theorem departmental_sum_preserved_witness :
    (([{ zoneGeographique := "01", valeurs := 7 }] : List DeptRow).map
        fun d => d.valeurs).sum =
      (((oneRow.filter fun r =>
        r.indicateur == "Vol" && r.uniteTemps == 2016)).map
          fun r => r.valeurs).sum :=
  departmental_sum_preserved oneRow "Vol" 2016 _ oneRow_dept

/-! ### C2: order of the departmental ranking -/

/-- C2 counterexample: on `tieRows` the two zones tie at value 5,
    yet the ranking lists them alphabetically ("A" before "B"),
    not in input encounter order ("B" before "A"): `groupby`
    sorts the zone keys before the value sort runs. -/
theorem departmental_tie_not_input_order :
    create_departmental_analysis tieRows "X" 2020 =
        some [{ zoneGeographique := "A", valeurs := 5 },
              { zoneGeographique := "B", valeurs := 5 }] ∧
      tieRows.map (fun r => r.zoneGeographique) = ["B", "A"] ∧
      ("A" : String) ≠ "B" := by
  refine ⟨?_, rfl, by decide⟩
  norm_num +decide [create_departmental_analysis, tieRows, zoneKeys,
    zoneLE, List.insertionSort, List.orderedInsert, deptGE, strLe,
    strLeAux, List.dedup]

/-- C2 amended: every returned ranking is sorted in descending
    order of per-zone summed value; the program makes no guarantee
    about the relative order of zones with equal sums (in
    particular, input encounter order is not preserved). -/
theorem departmental_ranking_order (df : List Record) (ind : String)
    (yr : Int) (l : List DeptRow)
    (h : create_departmental_analysis df ind yr = some l) :
    l.Pairwise fun a b => b.valeurs ≤ a.valeurs := by
  simp only [create_departmental_analysis] at h
  by_cases he : (df.filter fun r =>
      r.indicateur == ind && r.uniteTemps == yr).isEmpty
  · rw [if_pos he] at h
    exact Option.noConfusion h
  · rw [if_neg he] at h
    injection h with h
    subst h
    exact List.sorted_insertionSort deptGE _

/-- C2 witness: a concrete ranking satisfying the amended order. -/
theorem departmental_ranking_order_witness :
    ([{ zoneGeographique := "01", valeurs := 7 }] :
      List DeptRow).Pairwise fun a b => b.valeurs ≤ a.valeurs :=
  departmental_ranking_order oneRow "Vol" 2016 _ oneRow_dept

/-! ### C8: the specification's worked example -/

/-- C8: on the example dataset, national aggregation for "Vol" over
    2016-2017 and the departmental ranking for ("Vol", 2016) give
    exactly the tables stated in the specification. -/
theorem example_dataset_outputs :
    get_national_statistics exampleRows ["Vol"] [2016, 2017] =
        [{ uniteTemps := 2016, indicateur := "Vol", valeurs := 15 },
         { uniteTemps := 2017, indicateur := "Vol", valeurs := 15 }] ∧
      create_departmental_analysis exampleRows "Vol" 2016 =
        some [{ zoneGeographique := "01", valeurs := 10 },
              { zoneGeographique := "02", valeurs := 5 }] := by
  constructor
  · norm_num [get_national_statistics, exampleRows, natKeys, natKey,
      List.insertionSort, List.orderedInsert, pairLE, strLe, strLeAux,
      List.dedup]
  · norm_num +decide [create_departmental_analysis, exampleRows,
      zoneKeys, zoneLE, List.insertionSort, List.orderedInsert, deptGE,
      strLe, strLeAux, List.dedup]

/-! ### C9: the two scripts' tie-breaks -/

lemma calculate_statistics_eq_nb (national : List NatRow)
    (inds : List String) :
    calculate_statistics national inds =
      calculate_statistics_nb national inds := by
  induction inds with
  | nil => rfl
  | cons i is ih =>
    rw [calculate_statistics, calculate_statistics_nb,
      List.filterMap_cons, List.filterMap_cons, calc_indicator_eq_nb]
    rw [calculate_statistics, calculate_statistics_nb] at ih
    rw [ih]

/-- C9 counterexample, the negation of the claim: the two scripts'
    statistics calculators are one and the same function, so there
    is no input on which they return different max_year or
    min_year values. -/
theorem statistics_calculators_agree :
    calculate_statistics = calculate_statistics_nb :=
  funext fun national => funext fun inds =>
    calculate_statistics_eq_nb national inds

/-- C9 amended: on every per-indicator series, app.py's
    idxmax/idxmin-plus-`.loc` lookup and the notebook's
    boolean-mask first match select the same year — the first row
    attaining the extremum in ascending-year order — because the
    row labels left by `reset_index` are unique. -/
theorem tie_break_years_agree (national : List NatRow) (ind : String) :
    max_year_app (series_for national ind) =
        max_year_nb (series_for national ind) ∧
      min_year_app (series_for national ind) =
        min_year_nb (series_for national ind) :=
  ⟨max_year_app_eq_nb (series_for_labels_nodup national ind),
   min_year_app_eq_nb (series_for_labels_nodup national ind)⟩

/-! ### C3: department-code invariant of the loader -/

/-- C3: every row surviving `load_data` carries a department code
    of exactly two digit characters lying between "01" and "95"
    inclusive; each surviving code is taken verbatim from its raw
    row (after derivation when the `Code_dep` column is absent), so
    an input row whose code falls outside the range yields no row
    of the loaded set.  The same invariant holds for the notebook
    loader's cleaning. -/
theorem department_code_invariant :
    (∀ (read : String → Option RawCSV) (df : List Record),
        load_data read = .ok df → ∀ c ∈ df,
          (c.codeDep.data.length = 2 ∧
            ∀ ch ∈ c.codeDep.data, ch.isDigit = true) ∧
          strLe "01" c.codeDep = true ∧ strLe c.codeDep "95" = true) ∧
    (∀ (csv : RawCSV), ∀ c ∈ clean_app csv,
        ∃ r ∈ csv.rows,
          (deriveCodeDep (csv.columns.contains "Code_dep") r).codeDep =
            some c.codeDep) ∧
    (∀ (rows : List RawRow), ∀ c ∈ clean_nb rows,
        ((c.codeDep.data.length = 2 ∧
            ∀ ch ∈ c.codeDep.data, ch.isDigit = true) ∧
          strLe "01" c.codeDep = true ∧ strLe c.codeDep "95" = true) ∧
        ∃ r ∈ rows, r.codeDep = some c.codeDep) := by
  refine ⟨?_, ?_, ?_⟩
  · intro read df h c hc
    cases hfs : possible_paths.findSome? read with
    | none =>
      rw [load_data_none hfs] at h
      exact Except.noConfusion h
    | some csv =>
      rw [load_data_some hfs] at h
      have hdf : df = clean_app csv := load_from_csv_ok h
      subst hdf
      rcases mem_clean_app hc with ⟨htwo, hlo, hhi, -⟩
      exact ⟨⟨isTwoDigitCode_length htwo, isTwoDigitCode_digits htwo⟩,
        hlo, hhi⟩
  · intro csv c hc
    exact (mem_clean_app hc).2.2.2
  · intro rows c hc
    rcases mem_clean_nb hc with ⟨htwo, hlo, hhi, hex⟩
    exact ⟨⟨⟨isTwoDigitCode_length htwo, isTwoDigitCode_digits htwo⟩,
      hlo, hhi⟩, hex⟩

/-- A CSV whose second row carries the out-of-range code "99". -/
def csvExample : RawCSV :=
  { columns := ["Unite_temps", "Zone_geographique", "Valeurs",
                "Indicateur", "Code_dep"]
    rows := [{ uniteTemps := some 2016, zoneGeographique := some "Ain",
               valeurs := some (some 10), indicateur := some "Vol",
               codeDep := some "01" },
             { uniteTemps := some 2016, zoneGeographique := some "Hors",
               valeurs := some (some 3), indicateur := some "Vol",
               codeDep := some "99" }] }

/-- The single row of `csvExample` that survives cleaning. -/
def cleanedExample : Record :=
  { uniteTemps := 2016, zoneGeographique := "Ain", valeurs := 10,
    indicateur := "Vol", codeDep := "01" }

/-- A file system exposing `csvExample` at the first candidate
    path. -/
def readExample : String → Option RawCSV :=
  fun p =>
    if p = "data/serieschrono-datagouv.csv" then some csvExample
    else none

lemma load_data_readExample :
    load_data readExample = .ok [cleanedExample] := by
  norm_num +decide [load_data, load_from_csv, readExample,
    possible_paths, required_columns, csvExample, clean_app,
    deriveCodeDep, parseRow, isTwoDigitCode, zfill, cleanedExample,
    strLe, strLeAux, List.dedup, List.findSome?]

/-- C3 witness: the surviving row of `csvExample` satisfies the
    invariant (the row with code "99" was dropped). -/
theorem department_code_invariant_witness :
    (cleanedExample.codeDep.data.length = 2 ∧
        ∀ ch ∈ cleanedExample.codeDep.data, ch.isDigit = true) ∧
      strLe "01" cleanedExample.codeDep = true ∧
      strLe cleanedExample.codeDep "95" = true :=
  department_code_invariant.1 readExample [cleanedExample]
    load_data_readExample cleanedExample (List.mem_singleton.mpr rfl)

/-! ### C6: loader failures halt the pass -/

/-- A CSV missing most required columns. -/
def csvMissingCols : RawCSV := { columns := ["Unite_temps"], rows := [] }

/-- A file system exposing `csvMissingCols` at the first candidate
    path. -/
def readMissingCols : String → Option RawCSV :=
  fun p =>
    if p = "data/serieschrono-datagouv.csv" then some csvMissingCols
    else none

/-- C6: when no candidate path is readable, `load_data` fails with
    `DataNotFound`; when a required column is missing from the
    parsed header, it fails with a nonempty `SchemaError`; and any
    failure leaves the render pass without a dataset (the pass
    halts with `None`). -/
theorem load_data_failures :
    (∀ read : String → Option RawCSV,
        (∀ p ∈ possible_paths, read p = none) →
        load_data read = .error .dataNotFound) ∧
    (∀ (read : String → Option RawCSV) (csv : RawCSV) (col : String),
        possible_paths.findSome? read = some csv →
        col ∈ required_columns → col ∉ csv.columns →
        ∃ missing, missing ≠ [] ∧
          load_data read = .error (.schemaError missing)) ∧
    (∀ (read : String → Option RawCSV) (e : LoadError),
        load_data read = .error e → render_pass read = none) := by
  refine ⟨?_, ?_, ?_⟩
  · intro read hnone
    exact load_data_none (List.findSome?_eq_none_iff.mpr hnone)
  · intro read csv col hfs hcol hnot
    have hmem : col ∈ required_columns.filter fun c =>
        !csv.columns.contains c :=
      List.mem_filter.mpr ⟨hcol, by simp [hnot]⟩
    have hne : (required_columns.filter fun c =>
        !csv.columns.contains c) ≠ [] := List.ne_nil_of_mem hmem
    refine ⟨required_columns.filter fun c => !csv.columns.contains c,
      hne, ?_⟩
    rw [load_data_some hfs]
    unfold load_from_csv
    cases hml : required_columns.filter fun c =>
        !csv.columns.contains c with
    | nil => exact absurd hml hne
    | cons a t => rfl
  · intro read e h
    simp [render_pass, h]

/-- C6 witness: an unreadable file system fails with `DataNotFound`
    and halts the pass; a header missing required columns also
    halts the pass. -/
theorem load_data_failures_witness :
    load_data (fun _ => none) = .error .dataNotFound ∧
      render_pass (fun _ => none) = none ∧
      render_pass readMissingCols = none := by
  have h1 := load_data_failures.1 (fun _ => none) (fun p hp => rfl)
  refine ⟨h1, load_data_failures.2.2 _ _ h1, ?_⟩
  rcases load_data_failures.2.1 readMissingCols csvMissingCols "Valeurs"
      (by rfl) (by decide) (by decide) with ⟨miss, -, hload⟩
  exact load_data_failures.2.2 _ _ hload

/-! ### C4: the percentage-change formula -/

/-- C4: for every indicator present in the statistics map, the
    stored first/last values are the first and last values of the
    indicator's series sorted ascending by year, and the percentage
    change equals (last - first) / first * 100, defined as exactly
    0 whenever the first value is 0 regardless of the last value. -/
theorem evolution_pct_formula (national : List NatRow)
    (inds : List String) (ind : String) (st : IndicatorStats)
    (h : (calculate_statistics national inds).lookup ind = some st) :
    ((series_for national ind).map fun p => p.2.valeurs).head? =
        some st.first_value ∧
      ((series_for national ind).map fun p => p.2.valeurs).getLast? =
        some st.last_value ∧
      (st.first_value ≠ 0 →
        st.evolution_pct =
          (st.last_value - st.first_value) / st.first_value * 100) ∧
      (st.first_value = 0 → st.evolution_pct = 0) := by
  have hc := calc_indicator_spec (lookup_calculate_statistics h)
  refine ⟨hc.1, hc.2.1, ?_, ?_⟩
  · intro hne
    rw [hc.2.2, if_pos hne]
  · intro hz
    rw [hc.2.2, if_neg (not_not.mpr hz)]

/-- A national series for indicator "V" whose first value is 0. -/
def natSeriesZero : List NatRow :=
  [{ uniteTemps := 2016, indicateur := "V", valeurs := 0 },
   { uniteTemps := 2017, indicateur := "V", valeurs := 3 }]

/-- The summary computed for "V" on `natSeriesZero`. -/
def statsZero : IndicatorStats :=
  { first_value := 0, last_value := 3, first_year := 2016,
    last_year := 2017, evolution_abs := 3, evolution_pct := 0,
    total_cases := 3, mean_annual := 3 / 2, max_value := 3,
    min_value := 0, max_year := 2017, min_year := 2016 }

lemma lookup_natSeriesZero :
    (calculate_statistics natSeriesZero ["V"]).lookup "V" =
      some statsZero := by
  have h03 : ((0 : ℚ) == 3) = false := beq_eq_false_iff_ne.mpr (by norm_num)
  have h33 : ((3 : ℚ) == 3) = true := beq_iff_eq.mpr rfl
  have h00 : ((0 : ℚ) == 0) = true := beq_iff_eq.mpr rfl
  have h01n : ((0 : Nat) == 1) = false := rfl
  have h11n : ((1 : Nat) == 1) = true := rfl
  have h00n : ((0 : Nat) == 0) = true := rfl
  norm_num [calculate_statistics, calc_indicator, natSeriesZero,
    series_for, List.insertionSort, List.orderedInsert, yearLE,
    List.enum, List.enumFrom, series_max, series_min, max_year_app,
    min_year_app, List.find?, List.lookup, statsZero, max_def, min_def,
    h03, h33, h00, h01n, h11n, h00n]

/-- C4 witness: on a series whose first value in range is 0, the
    stored percentage change is exactly 0. -/
theorem evolution_pct_formula_witness :
    statsZero.first_value = 0 ∧ statsZero.evolution_pct = 0 :=
  ⟨rfl, (evolution_pct_formula natSeriesZero ["V"] "V" statsZero
    lookup_natSeriesZero).2.2.2 rfl⟩

/-! ### C5: indicators observed in a single year are excluded -/

/-- C5: an indicator appears in the statistics map computed from
    the national aggregation exactly when it is selected and the
    matching rows contain at least two distinct years for it; a
    selected indicator observed in exactly one year is silently
    absent (and the lookup is total, not an error). -/
theorem single_year_indicator_excluded (df : List Record)
    (inds : List String) (yrs : List Int) (ind : String) :
    ((calculate_statistics (get_national_statistics df inds yrs)
        inds).lookup ind).isSome = true ↔
      ind ∈ inds ∧
        ∃ r1 ∈ matching_rows df inds yrs,
          ∃ r2 ∈ matching_rows df inds yrs,
            r1.indicateur = ind ∧ r2.indicateur = ind ∧
              r1.uniteTemps ≠ r2.uniteTemps := by
  rw [lookup_isSome_calculate_statistics]
  apply and_congr_right
  rintro -
  rw [calc_indicator_isSome_iff, series_for_length, national_filter_ind,
    List.length_map,
    one_lt_length_iff ((natKeys_nodup (matching_rows df inds yrs)).filter _)]
  constructor
  · rintro ⟨k1, hk1, k2, hk2, hne⟩
    rcases List.mem_filter.mp hk1 with ⟨hk1m, hk1i⟩
    rcases List.mem_filter.mp hk2 with ⟨hk2m, hk2i⟩
    rcases mem_natKeys.mp hk1m with ⟨r1, hr1, hkr1⟩
    rcases mem_natKeys.mp hk2m with ⟨r2, hr2, hkr2⟩
    have hs1 : r1.indicateur = k1.2 := congrArg Prod.snd hkr1
    have hs2 : r2.indicateur = k2.2 := congrArg Prod.snd hkr2
    have hi1 : r1.indicateur = ind := hs1.trans (beq_iff_eq.mp hk1i)
    have hi2 : r2.indicateur = ind := hs2.trans (beq_iff_eq.mp hk2i)
    refine ⟨r1, hr1, r2, hr2, hi1, hi2, ?_⟩
    intro hy
    apply hne
    have e1 : k1 = (r1.uniteTemps, ind) := by
      rw [← hkr1, natKey, hi1]
    have e2 : k2 = (r2.uniteTemps, ind) := by
      rw [← hkr2, natKey, hi2]
    rw [e1, e2, hy]
  · rintro ⟨r1, hr1, r2, hr2, hi1, hi2, hy⟩
    refine ⟨natKey r1,
      List.mem_filter.mpr ⟨mem_natKeys.mpr ⟨r1, hr1, rfl⟩, ?_⟩,
      natKey r2,
      List.mem_filter.mpr ⟨mem_natKeys.mpr ⟨r2, hr2, rfl⟩, ?_⟩, ?_⟩
    · exact beq_iff_eq.mpr hi1
    · exact beq_iff_eq.mpr hi2
    · intro hk
      exact hy (congrArg Prod.fst hk)

/-- First row of the two-year witness dataset. -/
def twoYearRow0 : Record :=
  { uniteTemps := 2016, zoneGeographique := "01", valeurs := 1,
    indicateur := "V", codeDep := "01" }

/-- Second row of the two-year witness dataset. -/
def twoYearRow1 : Record :=
  { uniteTemps := 2017, zoneGeographique := "01", valeurs := 2,
    indicateur := "V", codeDep := "01" }

/-- A dataset with one indicator observed in two distinct years. -/
def twoYearRows : List Record := [twoYearRow0, twoYearRow1]

/-- C5 witness: with two observed years the selected indicator is
    present in the statistics map. -/
theorem single_year_indicator_excluded_witness :
    ((calculate_statistics
        (get_national_statistics twoYearRows ["V"] [2016, 2017])
        ["V"]).lookup "V").isSome = true := by
  refine (single_year_indicator_excluded twoYearRows ["V"]
    [2016, 2017] "V").mpr ⟨by decide, ?_⟩
  refine ⟨twoYearRow0, ?_, twoYearRow1, ?_, rfl, rfl, by decide⟩
  · simp [matching_rows, twoYearRows, twoYearRow0]
  · simp [matching_rows, twoYearRows, twoYearRow1]

end Oasis
